import Mathlib

/-!
Verification of the connection-identity and message-routing core
(`network/net.go` of the starx server fabric).

The Go source is shallowly embedded: pure computation becomes Lean
functions, the `netService` struct becomes an explicit state value that
operations take and return, and observable effects (transport sends,
callback invocations, diagnostic dumps, lock operations) become explicit
trace values returned by the operations.  External collaborators (the
message serializer `message.Encode` and the packet framer
`packet.Pack`) are fallible and out of scope, so the router operations
are parameterized by arbitrary `encode`/`pack` functions.
-/

set_option autoImplicit false

namespace Starx

/-- Byte sequences handed to the transport; bytes are modelled as `Nat`. -/
abbrev Bytes := List Nat

/-- Session status as consumed by this core (spec: at least `working` and
`closed`; the core only distinguishes `working` from everything else). -/
inductive Status where
  | working
  | closed
  deriving DecidableEq, Repr

/-- Modelled from the spec: the external `session.Session` value (the
`session` package is not under `src/`).  It carries `LastID` (the id of
the most recently received request-style inbound message, `0` if none or
if the last inbound was a notify), a status, and an `Entity` capability
exposing `ID()` (here `entityID`) and `Send` (sends are recorded as
`SendEvent` traces). -/
structure Session where
  lastID : Nat
  status : Status
  entityID : Nat
  deriving DecidableEq, Repr

/-- Modelled from the spec: the `agent` wrapper (`agent.go` is not under
`src/`): a registry-assigned identity plus one owned `Session`. -/
structure Agent where
  id : Nat
  session : Session
  deriving DecidableEq, Repr

/-- Modelled from the spec: the `acceptor` wrapper (`acceptor.go` is not
under `src/`): it tracks its own id for later explicit removal and owns
one `Session`. -/
structure Acceptor where
  id : Nat
  session : Session
  deriving DecidableEq, Repr

/-- Modelled from the spec: `newAgent(id, conn)` constructs the agent
with a fresh `Session` bound to that id (status `working`, no pending
correlatable request). -/
def newAgent (id : Nat) : Agent :=
  { id := id, session := { lastID := 0, status := .working, entityID := id } }

/-- Modelled from the spec: `newAcceptor(id, conn)`, symmetric to
`newAgent`. -/
def newAcceptor (id : Nat) : Acceptor :=
  { id := id, session := { lastID := 0, status := .working, entityID := id } }

/-- Logical message kinds of the external `message` package. -/
inductive MessageType where
  | request
  | notify
  | response
  | push
  deriving DecidableEq, Repr

/-- The logical message envelope handed to the external serializer
(`message.Message`); fields left at their Go zero value by a literal are
explicit here. -/
structure Message where
  type : MessageType
  id : Nat
  route : String
  data : Bytes
  deriving DecidableEq, Repr

/-- Wire-frame kinds of the external `packet` package that this core
uses. -/
inductive PacketType where
  | heartbeat
  | data
  deriving DecidableEq, Repr

/-- The packet handed to the external framer (`packet.Packet`). -/
structure Packet where
  type : PacketType
  length : Nat
  data : Bytes
  deriving DecidableEq, Repr

/-- One transport write: `session.Entity.Send(bytes)`, recorded against
the entity's id. -/
structure SendEvent where
  target : Nat
  bytes : Bytes
  deriving DecidableEq, Repr

/-- `net.send(session, data)`: unconditional transport write via the
session's entity. -/
def send (s : Session) (data : Bytes) : SendEvent :=
  { target := s.entityID, bytes := data }

/-- The message built by `Push`: kind push, carrying `route` and `data`,
no correlation id (`ID` is the Go zero value `0`, `Route` set). -/
def pushMessage (route : String) (data : Bytes) : Message :=
  { type := .push, id := 0, route := route, data := data }

/-- The message built by `Response`: kind response, correlation id
`LastID`, payload `data` (`Route` is the Go zero value). -/
def responseMessage (lastID : Nat) (data : Bytes) : Message :=
  { type := .response, id := lastID, route := "", data := data }

/-- The data packet wrapping an encoded message `m`:
`packet.Packet{Type: packet.Data, Length: len(m), Data: m}`. -/
def dataPacket (m : Bytes) : Packet :=
  { type := .data, length := m.length, data := m }

/-- `Push(session, route, data)`: encode a push message, frame it as a
data packet, send it; an encode or framing error is returned to the
caller and nothing is sent.  `encode`/`pack` are the external
collaborators. -/
def Push (encode : Message → Except String Bytes)
    (pack : Packet → Except String Bytes)
    (s : Session) (route : String) (data : Bytes) :
    Except String Unit × List SendEvent :=
  match encode (pushMessage route data) with
  | .error e => (.error e, [])
  | .ok m =>
    match pack (dataPacket m) with
    | .error e => (.error e, [])
    | .ok ep => (.ok (), [send s ep])

/-- Errors `Response` can return: the sentinel `ErrSessionOnNotify`
("current session working on notify mode"), or an error propagated from
the external serializer/framer. -/
inductive ResponseError where
  | sessionOnNotify
  | external (e : String)
  deriving DecidableEq, Repr

/-- `Response(session, data)`: if `session.LastID <= 0` fail immediately
with `ErrSessionOnNotify`; otherwise encode a response message carrying
`LastID` as correlation id, frame it, send it, with encode/frame errors
returned and nothing sent. -/
def Response (encode : Message → Except String Bytes)
    (pack : Packet → Except String Bytes)
    (s : Session) (data : Bytes) :
    Except ResponseError Unit × List SendEvent :=
  if s.lastID ≤ 0 then (.error .sessionOnNotify, [])
  else
    match encode (responseMessage s.lastID data) with
    | .error e => (.error (.external e), [])
    | .ok m =>
      match pack (dataPacket m) with
      | .error e => (.error (.external e), [])
      | .ok ep => (.ok (), [send s ep])

/-! ### Identity mappings

Go maps from `uint64` to wrapper pointers are modelled as association
lists with unique keys; a `nil` Go map (never allocated) is modelled as
`none`, distinct from an allocated empty map `some []`.  Reading a `nil`
map in Go yields not-found; `delete` on a `nil` map is a no-op. -/

/-- Insertion `m[k] = v` on an association list: replaces the entry for
`k` if present, otherwise appends at the end. -/
def assocInsert {α : Type} (m : List (Nat × α)) (k : Nat) (v : α) : List (Nat × α) :=
  match m with
  | [] => [(k, v)]
  | (k', v') :: rest => if k' = k then (k, v) :: rest else (k', v') :: assocInsert rest k v

/-- Lookup `m[k]` on an association list. -/
def assocFind {α : Type} (m : List (Nat × α)) (k : Nat) : Option α :=
  match m with
  | [] => none
  | (k', v') :: rest => if k' = k then some v' else assocFind rest k

/-- Deletion `delete(m, k)` on an association list. -/
def assocDelete {α : Type} (m : List (Nat × α)) (k : Nat) : List (Nat × α) :=
  m.filter (fun p => p.1 ≠ k)

/-- The `netService` registry state: two independent namespaces (agents,
acceptors), each a counter plus a mapping, and the ordered close-callback
list.  Callbacks are opaque side-effecting functions; they are modelled
by tokens (`Nat`), a `nil` function entry by `none`.  The locks are not
state (they carry no data); each operation's lock usage is recorded
separately as a `LockEvent` trace. -/
structure NetService where
  agentUid : Nat
  agentMap : Option (List (Nat × Agent))
  acceptorUid : Nat
  acceptorMap : Option (List (Nat × Acceptor))
  sessionCloseCb : List (Option Nat)
  deriving DecidableEq, Repr

/-- `NewNetService()`: both counters start at 1, both maps allocated
empty, no callbacks. -/
def NewNetService : NetService :=
  { agentUid := 1
    agentMap := some []
    acceptorUid := 1
    acceptorMap := some []
    sessionCloseCb := [] }

/-- `createAgent(conn)`: reserve the next agent id (counter read then
incremented under the counter lock), build the agent, insert it into the
agent mapping under the mapping lock, return it.  The Go insert targets
an allocated map; on a `nil` map it is modelled as allocating (Go would
panic there, a state no constructed registry reaches). -/
def createAgent (net : NetService) : NetService × Agent :=
  let id := net.agentUid
  let a := newAgent id
  ({ net with
      agentUid := net.agentUid + 1
      agentMap := some (assocInsert (net.agentMap.getD []) id a) },
    a)

/-- `getAgent(sid)`: pure lookup in the agent mapping; absent ids (and a
`nil` map) yield an error. -/
def getAgent (net : NetService) (sid : Nat) : Except String Agent :=
  match assocFind (net.agentMap.getD []) sid with
  | some a => .ok a
  | none => .error ("agent id not exists")

/-- `createAcceptor(conn)`: symmetric to `createAgent` on the
independent acceptor namespace. -/
def createAcceptor (net : NetService) : NetService × Acceptor :=
  let id := net.acceptorUid
  let a := newAcceptor id
  ({ net with
      acceptorUid := net.acceptorUid + 1
      acceptorMap := some (assocInsert (net.acceptorMap.getD []) id a) },
    a)

/-- `getAcceptor(sid)`: pure lookup in the acceptor mapping. -/
def getAcceptor (net : NetService) (sid : Nat) : Except String Acceptor :=
  match assocFind (net.acceptorMap.getD []) sid with
  | some a => .ok a
  | none => .error ("acceptor id not exists")

/-- `removeAcceptor(a)`: delete the acceptor's id from the acceptor
mapping unconditionally (on a `nil` map Go's `delete` is a no-op, hence
`Option.map`). -/
def removeAcceptor (net : NetService) (a : Acceptor) : NetService :=
  { net with acceptorMap := net.acceptorMap.map (fun m => assocDelete m a.id) }

/-- `sessionClosedCallback(cb)`: append the (possibly `nil`) callback to
the close-callback list under its write lock. -/
def sessionClosedCallback (net : NetService) (cb : Option Nat) : NetService :=
  { net with sessionCloseCb := net.sessionCloseCb ++ [cb] }

/-! ### Fan-out routing -/

instance : DecidableEq (Except String Unit) := fun x y =>
  match x, y with
  | .ok (), .ok () => isTrue rfl
  | .error a, .error b =>
      if h : a = b then isTrue (by rw [h]) else isFalse (fun hh => by cases hh; exact h rfl)
  | .ok _, .error _ => isFalse (fun h => by cases h)
  | .error _, .ok _ => isFalse (fun h => by cases h)

/-- One `Push` invocation performed inside a fan-out loop: the target
session, the (discarded) result, and the sends it performed. -/
structure PushCall where
  target : Session
  result : Except String Unit
  sent : List SendEvent
  deriving DecidableEq, Repr

/-- The trace of one `net.Push(s, route, data)` call whose return value
the fan-out loop discards. -/
def pushCall (encode : Message → Except String Bytes)
    (pack : Packet → Except String Bytes)
    (s : Session) (route : String) (data : Bytes) : PushCall :=
  let r := Push encode pack s route data
  { target := s, result := r.1, sent := r.2 }

/-- `Broadcast(route, data)`: nothing when the process is not frontend
(`appConfig.IsFrontend` read at call time is the `isFrontend`
parameter); otherwise one `Push` per currently-registered agent, each
result discarded.  The Go method returns nothing; the value here is the
trace of `Push` invocations. -/
def Broadcast (encode : Message → Except String Bytes)
    (pack : Packet → Except String Bytes)
    (isFrontend : Bool) (net : NetService)
    (route : String) (data : Bytes) : List PushCall :=
  if isFrontend then
    (net.agentMap.getD []).map (fun p => pushCall encode pack p.2.session route data)
  else []

/-- `Multicast(aids, route, data)`: for each id in the caller-supplied
list, look the agent up; present ids receive a `Push` (result
discarded), absent ids are skipped.  Returns the `Push` invocation
trace. -/
def Multicast (encode : Message → Except String Bytes)
    (pack : Packet → Except String Bytes)
    (net : NetService) (aids : List Nat)
    (route : String) (data : Bytes) : List PushCall :=
  aids.filterMap (fun aid =>
    (assocFind (net.agentMap.getD []) aid).map
      (fun agent => pushCall encode pack agent.session route data))

/-! ### Lifecycle manager, dumps, heartbeat -/

/-- `dumpAgents()`: the diagnostic dump emitted to the logging sink —
the current agent count and a per-session description of every
registered agent. -/
def dumpAgents (net : NetService) : Nat × List Agent :=
  ((net.agentMap.getD []).length, (net.agentMap.getD []).map (fun p => p.2))

/-- `dumpAcceptor()`: symmetric dump of the acceptor mapping. -/
def dumpAcceptor (net : NetService) : Nat × List Acceptor :=
  ((net.acceptorMap.getD []).length, (net.acceptorMap.getD []).map (fun p => p.2))

/-- The close-callback loop of `closeSession`: guarded by an emptiness
test, it walks the list in order and invokes every non-`nil` entry with
the closing session; the result is the invocation trace (callback token,
argument). -/
def runCloseCallbacks (cbs : List (Option Nat)) (s : Session) : List (Nat × Session) :=
  if cbs.length > 0 then
    cbs.foldl (fun acc cb =>
      match cb with
      | some f => acc ++ [(f, s)]
      | none => acc) []
  else []

/-- The observable effects of one `closeSession` call: the callback
invocation trace, and the agent dump emitted to the logging sink when
the process is frontend (`none` when no dump was emitted). -/
structure CloseEffects where
  callbacks : List (Nat × Session)
  dump : Option (Nat × List Agent)
  deriving DecidableEq, Repr

/-- `closeSession(session)`: run the close callbacks; then, if the
process is frontend, look the owning agent up by the session's entity id
in the receiver's agent mapping, delete it when present, and emit
`defaultNetService.dumpAgents()`.  The dump targets the package-global
`defaultNetService`, not the receiver: `aliasDefault` records whether
the receiver `net` *is* that global (the usual call pattern), in which
case the global seen by the dump is the just-updated receiver;
otherwise the dump reads the independent `defaultNS` state.  When the
process is not frontend the commented-out acceptor branch does nothing:
no mapping is touched and no dump is emitted. -/
def closeSession (isFrontend : Bool) (net : NetService)
    (aliasDefault : Bool) (defaultNS : NetService) (s : Session) :
    NetService × CloseEffects :=
  let cbTrace := runCloseCallbacks net.sessionCloseCb s
  if isFrontend then
    let net' := { net with
      agentMap := net.agentMap.map (fun m =>
        match assocFind m s.entityID with
        | some _ => assocDelete m s.entityID
        | none => m) }
    (net', { callbacks := cbTrace
             dump := some (dumpAgents (if aliasDefault then net' else defaultNS)) })
  else
    (net, { callbacks := cbTrace, dump := none })

/-- The pre-built heartbeat frame: `packet.Pack(&packet.Packet{Type:
packet.Heartbeat})`, computed once at process start and reused for every
heartbeat send.  The framer is an external collaborator producing a
fixed-header frame with empty payload; its concrete bytes are opaque to
this core, so a fixed representative frame stands for them. -/
def heartbeatPacket : Bytes := [3, 0, 0, 0]

/-- `heartbeat()`: nothing if the process is not frontend or the agent
mapping is `nil`; otherwise walk the agent mapping and, for every agent
whose session status is `working`, send the shared `heartbeatPacket`
through that session's transport and invoke the session's heartbeat
bookkeeping hook.  The trace pairs each send with the entity id whose
bookkeeping hook ran. -/
def heartbeat (isFrontend : Bool) (net : NetService) : List (SendEvent × Nat) :=
  if !isFrontend || net.agentMap = none then []
  else
    (net.agentMap.getD []).foldl (fun acc p =>
      if p.2.session.status = .working then
        acc ++ [(send p.2.session heartbeatPacket, p.2.session.entityID)]
      else acc) []

/-! ### State-threaded router operations

The Go `Push`/`Response` are methods on `*netService` receiving a
`*session.Session`; to make their (absent) state effects explicit, the
same bodies are transcribed here threading the registry state and the
session value through every step. -/

/-- `Push` with the receiver state and the session threaded explicitly:
the body contains no assignment to any `netService` field or `Session`
field, so both come back with the result and the send trace. -/
def PushS (encode : Message → Except String Bytes)
    (pack : Packet → Except String Bytes)
    (net : NetService) (s : Session) (route : String) (data : Bytes) :
    NetService × Session × (Except String Unit × List SendEvent) :=
  match encode (pushMessage route data) with
  | .error e => (net, s, .error e, [])
  | .ok m =>
    match pack (dataPacket m) with
    | .error e => (net, s, .error e, [])
    | .ok ep => (net, s, .ok (), [send s ep])

/-- `Response` with the receiver state and the session threaded
explicitly, as for `PushS`. -/
def ResponseS (encode : Message → Except String Bytes)
    (pack : Packet → Except String Bytes)
    (net : NetService) (s : Session) (data : Bytes) :
    NetService × Session × (Except ResponseError Unit × List SendEvent) :=
  if s.lastID ≤ 0 then (net, s, .error .sessionOnNotify, [])
  else
    match encode (responseMessage s.lastID data) with
    | .error e => (net, s, .error (.external e), [])
    | .ok m =>
      match pack (dataPacket m) with
      | .error e => (net, s, .error (.external e), [])
      | .ok ep => (net, s, .ok (), [send s ep])

/-! ### Lock usage

Each operation's sequence of lock acquisitions and releases, transcribed
from the operation's body.  The five reader/writer locks of `netService`
are named; `lock`/`unlock` are the write side, `rlock`/`runlock` the
read side. -/

/-- The five reader/writer locks of `netService`. -/
inductive LockName where
  | agentUidLock
  | agentMapLock
  | acceptorUidLock
  | acceptorMapLock
  | sessionCloseCbLock
  deriving DecidableEq, Repr

/-- A lock operation: write-side acquire/release or read-side
acquire/release. -/
inductive LockEvent where
  | lock (l : LockName)
  | unlock (l : LockName)
  | rlock (l : LockName)
  | runlock (l : LockName)
  deriving DecidableEq, Repr

/-- Lock usage of `createAgent`: counter lock around the increment, then
mapping lock around the insert. -/
def createAgentLocks : List LockEvent :=
  [.lock .agentUidLock, .unlock .agentUidLock, .lock .agentMapLock, .unlock .agentMapLock]

/-- Lock usage of `createAcceptor`. -/
def createAcceptorLocks : List LockEvent :=
  [.lock .acceptorUidLock, .unlock .acceptorUidLock,
    .lock .acceptorMapLock, .unlock .acceptorMapLock]

/-- Lock usage of `getAgent`: the body takes no lock. -/
def getAgentLocks : List LockEvent := []

/-- Lock usage of `getAcceptor`: the body takes no lock. -/
def getAcceptorLocks : List LockEvent := []

/-- Lock usage of `Broadcast`: the body iterates the agent mapping
without taking any lock. -/
def BroadcastLocks : List LockEvent := []

/-- Lock usage of `Multicast`: the body looks the agent mapping up
without taking any lock. -/
def MulticastLocks : List LockEvent := []

/-- Lock usage of `heartbeat`: the body iterates the agent mapping
without taking any lock. -/
def heartbeatLocks : List LockEvent := []

/-- Lock usage of `dumpAgents`: read lock on the agent mapping held for
the scan. -/
def dumpAgentsLocks : List LockEvent :=
  [.rlock .agentMapLock, .runlock .agentMapLock]

/-- Lock usage of `dumpAcceptor`. -/
def dumpAcceptorLocks : List LockEvent :=
  [.rlock .acceptorMapLock, .runlock .acceptorMapLock]

/-- Lock usage of `removeAcceptor`: write lock on the acceptor mapping
around the delete. -/
def removeAcceptorLocks : List LockEvent :=
  [.lock .acceptorMapLock, .unlock .acceptorMapLock]

/-- Lock usage of `sessionClosedCallback`: write lock on the callback
list around the append. -/
def sessionClosedCallbackLocks : List LockEvent :=
  [.lock .sessionCloseCbLock, .unlock .sessionCloseCbLock]

/-- Lock usage of `closeSession`: read lock on the callback list around
the invocation loop; when frontend, write lock on the agent mapping
around the eviction, then `dumpAgents`' read lock. -/
def closeSessionLocks (isFrontend : Bool) : List LockEvent :=
  [.rlock .sessionCloseCbLock, .runlock .sessionCloseCbLock] ++
    (if isFrontend then
      [.lock .agentMapLock, .unlock .agentMapLock] ++ dumpAgentsLocks
    else [])

/-- Whether a lock trace ever acquires (read or write side) the given
lock. -/
def acquires (tr : List LockEvent) (l : LockName) : Bool :=
  tr.any (fun ev =>
    match ev with
    | .lock l' => l' = l
    | .rlock l' => l' = l
    | _ => false)

/-- A sequence of `N` `createAgent` calls, returning the final registry
state and the created agents in call order. -/
def createAgents : Nat → NetService → NetService × List Agent
  | 0, net => (net, [])
  | Nat.succ n, net =>
    let r := createAgent net
    let r' := createAgents n r.1
    (r'.1, r.2 :: r'.2)

/-! ### Helper lemmas about the association-list operations -/

theorem assocFind_insert_self {α : Type} (m : List (Nat × α)) (k : Nat) (v : α) :
    assocFind (assocInsert m k v) k = some v := by
  induction m with
  | nil => simp [assocInsert, assocFind]
  | cons hd tl ih =>
    by_cases h : hd.1 = k <;> simp [assocInsert, assocFind, h, ih]

theorem assocFind_insert_ne {α : Type} (m : List (Nat × α)) (k k' : Nat) (v : α)
    (h : k' ≠ k) : assocFind (assocInsert m k v) k' = assocFind m k' := by
  have h' : k ≠ k' := fun hh => h hh.symm
  induction m with
  | nil => simp [assocInsert, assocFind, h']
  | cons hd tl ih =>
    by_cases h1 : hd.1 = k
    · subst h1
      simp [assocInsert, assocFind, h']
    · simp [assocInsert, assocFind, h1, ih]

theorem assocDelete_idem {α : Type} (m : List (Nat × α)) (k : Nat) :
    assocDelete (assocDelete m k) k = assocDelete m k := by
  simp [assocDelete, List.filter_filter]

theorem assocDelete_of_find_none {α : Type} (m : List (Nat × α)) (k : Nat)
    (h : assocFind m k = none) : assocDelete m k = m := by
  induction m with
  | nil => rfl
  | cons hd tl ih =>
    by_cases h1 : hd.1 = k
    · simp [assocFind, h1] at h
    · simp [assocFind, h1] at h
      simp [assocDelete, h1] at ih ⊢
      exact ih h

theorem assocFind_delete_self {α : Type} (m : List (Nat × α)) (k : Nat) :
    assocFind (assocDelete m k) k = none := by
  induction m with
  | nil => rfl
  | cons hd tl ih =>
    by_cases h1 : hd.1 = k <;> simp [assocDelete, assocFind, h1] at ih ⊢ <;>
      simpa [assocDelete, h1] using ih

/-! ### Helper lemmas about the fold-style loops -/

theorem runCloseCallbacks_foldl_aux (s : Session) :
    ∀ (cbs : List (Option Nat)) (acc : List (Nat × Session)),
      cbs.foldl (fun acc cb =>
        match cb with
        | some f => acc ++ [(f, s)]
        | none => acc) acc
      = acc ++ (cbs.filterMap id).map (fun c => (c, s))
  | [], acc => by simp
  | none :: tl, acc => by
      simpa using runCloseCallbacks_foldl_aux s tl acc
  | some f :: tl, acc => by
      simpa using runCloseCallbacks_foldl_aux s tl (acc ++ [(f, s)])

/-- The callback loop invokes exactly the non-`nil` registered
callbacks, in registration order, each with the closing session. -/
theorem runCloseCallbacks_eq (cbs : List (Option Nat)) (s : Session) :
    runCloseCallbacks cbs s = (cbs.filterMap id).map (fun c => (c, s)) := by
  unfold runCloseCallbacks
  by_cases h : cbs.length > 0
  · simpa [h] using runCloseCallbacks_foldl_aux s cbs []
  · cases cbs with
    | nil => simp
    | cons hd tl => simp at h

theorem heartbeat_foldl_aux :
    ∀ (m : List (Nat × Agent)) (acc : List (SendEvent × Nat)),
      m.foldl (fun acc p =>
        if p.2.session.status = .working then
          acc ++ [(send p.2.session heartbeatPacket, p.2.session.entityID)]
        else acc) acc
      = acc ++ (m.filter (fun p => p.2.session.status == .working)).map
          (fun p => (send p.2.session heartbeatPacket, p.2.session.entityID))
  | [], acc => by simp
  | hd :: tl, acc => by
      by_cases h : hd.2.session.status = .working
      · simpa [h] using heartbeat_foldl_aux tl
          (acc ++ [(send hd.2.session heartbeatPacket, hd.2.session.entityID)])
      · simpa [h] using heartbeat_foldl_aux tl acc

/-! ### The id-assignment invariant of repeated `createAgent` calls -/

theorem createAgents_general :
    ∀ (n : Nat) (net : NetService) (m : List (Nat × Agent)),
      net.agentMap = some m →
      ((createAgents n net).1.agentUid = net.agentUid + n)
      ∧ ((createAgents n net).2.map Agent.id = List.range' net.agentUid n)
      ∧ (∃ m', (createAgents n net).1.agentMap = some m'
          ∧ ∀ k, assocFind m' k =
              if net.agentUid ≤ k ∧ k < net.agentUid + n
              then some (newAgent k) else assocFind m k)
      ∧ ((createAgents n net).1.acceptorUid = net.acceptorUid)
      ∧ ((createAgents n net).1.acceptorMap = net.acceptorMap)
      ∧ ((createAgents n net).1.sessionCloseCb = net.sessionCloseCb) := by
  intro n
  induction n with
  | zero =>
    intro net m h
    refine ⟨rfl, rfl, ⟨m, h, ?_⟩, rfl, rfl, rfl⟩
    intro k
    have hc : ¬(net.agentUid ≤ k ∧ k < net.agentUid + 0) := by omega
    rw [if_neg hc]
  | succ n ih =>
    intro net m h
    have h1 : (createAgent net).1.agentMap
        = some (assocInsert m net.agentUid (newAgent net.agentUid)) := by
      simp [createAgent, h]
    have huid1 : (createAgent net).1.agentUid = net.agentUid + 1 := rfl
    obtain ⟨huid, hids, ⟨m', hm', hfind⟩, hau, ham, hcb⟩ :=
      ih (createAgent net).1 _ h1
    have hsplit : createAgents (n + 1) net
        = ((createAgents n (createAgent net).1).1,
            (createAgent net).2 :: (createAgents n (createAgent net).1).2) := rfl
    refine ⟨?_, ?_, ⟨m', ?_, ?_⟩, ?_, ?_, ?_⟩
    · rw [hsplit]
      show (createAgents n (createAgent net).1).1.agentUid = net.agentUid + (n + 1)
      rw [huid, huid1]
      omega
    · rw [hsplit]
      simp only [List.map_cons, hids, huid1]
      have : (createAgent net).2.id = net.agentUid := rfl
      rw [this, List.range'_succ]
    · rw [hsplit]; exact hm'
    · intro k
      have hk := hfind k
      rw [huid1] at hk
      by_cases hke : k = net.agentUid
      · have hc1 : ¬(net.agentUid + 1 ≤ k ∧ k < net.agentUid + 1 + n) := by omega
        have hc2 : net.agentUid ≤ net.agentUid ∧ net.agentUid < net.agentUid + (n + 1) := by
          omega
        rw [hk, if_neg hc1, hke, assocFind_insert_self, if_pos hc2]
      · by_cases hk2 : net.agentUid + 1 ≤ k ∧ k < net.agentUid + 1 + n
        · have hc2 : net.agentUid ≤ k ∧ k < net.agentUid + (n + 1) := by omega
          rw [hk, if_pos hk2, if_pos hc2]
        · have hc2 : ¬(net.agentUid ≤ k ∧ k < net.agentUid + (n + 1)) := by omega
          rw [hk, if_neg hk2, if_neg hc2, assocFind_insert_ne _ _ _ _ hke]
    · rw [hsplit]
      rw [hau]
      exact rfl
    · rw [hsplit]
      rw [ham]
      exact rfl
    · rw [hsplit]
      rw [hcb]
      exact rfl

/-! ## Claim theorems -/

/-- C1: `Response(session, data)` returns `ErrSessionOnNotify` if and
only if `session.LastID <= 0`, in which case nothing is serialized or
sent; for `LastID > 0` it encodes a response-kind message whose
correlation id equals `session.LastID`, frames it, and sends it,
returning the encode/frame error (and sending nothing) if either step
fails. -/
theorem Response_spec (encode : Message → Except String Bytes)
    (pack : Packet → Except String Bytes) (s : Session) (data : Bytes) :
    (s.lastID ≤ 0 →
      Response encode pack s data = (.error .sessionOnNotify, []))
    ∧ ((Response encode pack s data).1 = .error .sessionOnNotify ↔ s.lastID ≤ 0)
    ∧ (0 < s.lastID →
        (∀ e, encode (responseMessage s.lastID data) = .error e →
          Response encode pack s data = (.error (.external e), []))
        ∧ (∀ m e, encode (responseMessage s.lastID data) = .ok m →
            pack (dataPacket m) = .error e →
            Response encode pack s data = (.error (.external e), []))
        ∧ (∀ m ep, encode (responseMessage s.lastID data) = .ok m →
            pack (dataPacket m) = .ok ep →
            Response encode pack s data = (.ok (), [send s ep]))) := by
  refine ⟨?_, ?_, ?_⟩
  · intro h
    simp [Response, h]
  · by_cases h : s.lastID ≤ 0
    · simp [Response, h]
    · cases he : encode (responseMessage s.lastID data) with
      | error e => simp [Response, h, he]
      | ok m =>
        cases hp : pack (dataPacket m) with
        | error e => simp [Response, h, he, hp]
        | ok ep => simp [Response, h, he, hp]
  · intro hpos
    have h : ¬s.lastID ≤ 0 := by omega
    refine ⟨?_, ?_, ?_⟩
    · intro e he
      simp [Response, h, he]
    · intro m e he hp
      simp [Response, h, he, hp]
    · intro m ep he hp
      simp [Response, h, he, hp]

/-- Witness for C1 at concrete inputs: a session with `LastID = 7`
responds successfully with the framed payload sent to its entity, and
the same session with `LastID = 0` gets `ErrSessionOnNotify` with
nothing sent. -/
theorem Response_spec_witness :
    Response (fun m => .ok m.data) (fun p => .ok p.data)
        { lastID := 7, status := .working, entityID := 5 } [1, 2]
      = (.ok (), [{ target := 5, bytes := [1, 2] }])
    ∧ Response (fun m => .ok m.data) (fun p => .ok p.data)
        { lastID := 0, status := .working, entityID := 5 } [1, 2]
      = (.error .sessionOnNotify, []) := by
  constructor
  · exact (Response_spec (fun m => .ok m.data) (fun p => .ok p.data)
      { lastID := 7, status := .working, entityID := 5 } [1, 2]).2.2
      (by decide) |>.2.2 [1, 2] [1, 2] rfl rfl
  · exact (Response_spec (fun m => .ok m.data) (fun p => .ok p.data)
      { lastID := 0, status := .working, entityID := 5 } [1, 2]).1 (by decide)

/-- C10: `Push` and `Response` modify neither the registry state (agent
and acceptor mappings, both id counters, the callback list) nor the
session (`LastID`, status), whether they succeed or fail: the
state-threaded transcriptions return the receiver and the session
exactly as given, alongside the pure result and send trace. -/
theorem Push_Response_frame (encode : Message → Except String Bytes)
    (pack : Packet → Except String Bytes) (net : NetService) (s : Session)
    (route : String) (data : Bytes) :
    PushS encode pack net s route data = (net, s, Push encode pack s route data)
    ∧ ResponseS encode pack net s data = (net, s, Response encode pack s data) := by
  constructor
  · cases he : encode (pushMessage route data) with
    | error e => simp [PushS, Push, he]
    | ok m =>
      cases hp : pack (dataPacket m) with
      | error e => simp [PushS, Push, he, hp]
      | ok ep => simp [PushS, Push, he, hp]
  · by_cases h : s.lastID ≤ 0
    · simp [ResponseS, Response, h]
    · cases he : encode (responseMessage s.lastID data) with
      | error e => simp [ResponseS, Response, h, he]
      | ok m =>
        cases hp : pack (dataPacket m) with
        | error e => simp [ResponseS, Response, h, he, hp]
        | ok ep => simp [ResponseS, Response, h, he, hp]

/-- C2: `Broadcast(route, data)` performs zero `Push` calls when the
process role is backend, and when the role is frontend it invokes `Push`
exactly once per currently-registered agent (the `i`-th call targeting
the `i`-th agent's session), with each call's result discarded so one
failure cannot abort the remaining iterations; `Broadcast` returns no
aggregate error, only the invocation trace. -/
theorem Broadcast_spec (encode : Message → Except String Bytes)
    (pack : Packet → Except String Bytes) (net : NetService)
    (route : String) (data : Bytes) :
    Broadcast encode pack false net route data = []
    ∧ Broadcast encode pack true net route data
        = (net.agentMap.getD []).map (fun p => pushCall encode pack p.2.session route data)
    ∧ (Broadcast encode pack true net route data).length
        = (net.agentMap.getD []).length
    ∧ (∀ i : Nat, (Broadcast encode pack true net route data)[i]?
        = ((net.agentMap.getD [])[i]?).map
            (fun p => pushCall encode pack p.2.session route data)) := by
  refine ⟨rfl, rfl, by simp [Broadcast], ?_⟩
  intro i
  simp [Broadcast]

theorem multicast_length_aux (f : Nat → Option Agent) (g : Agent → PushCall) :
    ∀ aids : List Nat,
      (aids.filterMap (fun aid => (f aid).map g)).length
        = aids.countP (fun aid => (f aid).isSome)
  | [] => by simp
  | hd :: tl => by
      cases h : f hd <;>
        simp [List.filterMap_cons, List.countP_cons, h, multicast_length_aux f g tl]

/-- C7: `Multicast(ids, route, data)` invokes `Push` exactly once for
each id in the caller-supplied list that is present in the agent
mapping, silently skips absent ids without any error, continues past any
per-target failure, and in particular `[validId, unknownId, validId2]`
yields exactly the two calls for the valid ids. -/
theorem Multicast_spec (encode : Message → Except String Bytes)
    (pack : Packet → Except String Bytes) (net : NetService)
    (route : String) (data : Bytes) :
    (∀ aids, (Multicast encode pack net aids route data).length
        = aids.countP (fun aid => (assocFind (net.agentMap.getD []) aid).isSome))
    ∧ (∀ aids pc, pc ∈ Multicast encode pack net aids route data →
        ∃ aid ∈ aids, ∃ a, assocFind (net.agentMap.getD []) aid = some a
          ∧ pc = pushCall encode pack a.session route data)
    ∧ (∀ v1 u v2 a1 a2,
        assocFind (net.agentMap.getD []) v1 = some a1 →
        assocFind (net.agentMap.getD []) u = none →
        assocFind (net.agentMap.getD []) v2 = some a2 →
        Multicast encode pack net [v1, u, v2] route data
          = [pushCall encode pack a1.session route data,
              pushCall encode pack a2.session route data]) := by
  refine ⟨?_, ?_, ?_⟩
  · intro aids
    exact multicast_length_aux _ _ aids
  · intro aids pc hpc
    obtain ⟨aid, haid, hsome⟩ := List.mem_filterMap.1 hpc
    obtain ⟨a, ha, hga⟩ := Option.map_eq_some'.1 hsome
    exact ⟨aid, haid, a, ha, hga.symm⟩
  · intro v1 u v2 a1 a2 h1 h2 h3
    simp [Multicast, h1, h2, h3]

/-- Witness for C7: a registry holding agents 1 and 3, multicast to
`[1, 2, 3]` where 2 is unknown, produces exactly the two calls for
agents 1 and 3. -/
theorem Multicast_spec_witness :
    Multicast (fun m => .ok m.data) (fun p => .ok p.data)
        { agentUid := 4, agentMap := some [(1, newAgent 1), (3, newAgent 3)],
          acceptorUid := 1, acceptorMap := some [], sessionCloseCb := [] }
        [1, 2, 3] "chat" [9]
      = [pushCall (fun m => .ok m.data) (fun p => .ok p.data) (newAgent 1).session "chat" [9],
          pushCall (fun m => .ok m.data) (fun p => .ok p.data) (newAgent 3).session "chat" [9]] :=
  (Multicast_spec (fun m => .ok m.data) (fun p => .ok p.data)
      { agentUid := 4, agentMap := some [(1, newAgent 1), (3, newAgent 3)],
        acceptorUid := 1, acceptorMap := some [], sessionCloseCb := [] }
      "chat" [9]).2.2 1 2 3 (newAgent 1) (newAgent 3) (by decide) (by decide) (by decide)

/-- C4: one `closeSession` call invokes exactly the non-`nil` callbacks
previously registered via `sessionClosedCallback`, in registration
order, once each, passing the closing session; `sessionClosedCallback`
itself appends to the registration list. -/
theorem closeSession_callbacks_spec (isFrontend : Bool) (net : NetService)
    (aliasDefault : Bool) (defaultNS : NetService) (s : Session) :
    (closeSession isFrontend net aliasDefault defaultNS s).2.callbacks
      = (net.sessionCloseCb.filterMap id).map (fun c => (c, s))
    ∧ (∀ cb, (sessionClosedCallback net cb).sessionCloseCb
        = net.sessionCloseCb ++ [cb]) := by
  constructor
  · cases isFrontend <;> simp [closeSession, runCloseCallbacks_eq]
  · intro cb
    rfl

theorem heartbeat_eq_filter (net : NetService) (m : List (Nat × Agent))
    (hm : net.agentMap = some m) :
    heartbeat true net
      = (m.filter (fun p => p.2.session.status == .working)).map
          (fun p => (send p.2.session heartbeatPacket, p.2.session.entityID)) := by
  simp only [heartbeat, hm]
  simpa using heartbeat_foldl_aux m []

/-- C6: `heartbeat()` does nothing when the process role is not frontend
or the agent mapping is uninitialized; otherwise every
currently-registered agent whose session status is `working` receives
one send of the single pre-built heartbeat frame followed by its
session's bookkeeping hook, and agents whose status is not `working`
receive neither; every send carries the identical `heartbeatPacket`
bytes. -/
theorem heartbeat_spec (isFrontend : Bool) (net : NetService) :
    (isFrontend = false → heartbeat isFrontend net = [])
    ∧ (net.agentMap = none → heartbeat isFrontend net = [])
    ∧ (∀ m, net.agentMap = some m →
        heartbeat true net
          = (m.filter (fun p => p.2.session.status == .working)).map
              (fun p => (send p.2.session heartbeatPacket, p.2.session.entityID)))
    ∧ (∀ ev ∈ heartbeat isFrontend net, ev.1.bytes = heartbeatPacket) := by
  refine ⟨?_, ?_, ?_, ?_⟩
  · intro h
    simp [heartbeat, h]
  · intro h
    simp [heartbeat, h]
  · intro m hm
    exact heartbeat_eq_filter net m hm
  · intro ev hev
    cases hf : isFrontend with
    | false => rw [hf] at hev; simp [heartbeat] at hev
    | true =>
      rw [hf] at hev
      cases hm : net.agentMap with
      | none => simp [heartbeat, hm] at hev
      | some m =>
        rw [heartbeat_eq_filter net m hm] at hev
        obtain ⟨p, _, hp⟩ := List.mem_map.1 hev
        rw [← hp]
        exact rfl

/-- Witness for C6: a frontend registry with one working and one closed
agent heartbeats exactly the working one. -/
theorem heartbeat_spec_witness :
    heartbeat true
        { agentUid := 3
          agentMap := some
            [(1, { id := 1, session := { lastID := 0, status := .working, entityID := 1 } }),
              (2, { id := 2, session := { lastID := 0, status := .closed, entityID := 2 } })]
          acceptorUid := 1, acceptorMap := some [], sessionCloseCb := [] }
      = [({ target := 1, bytes := heartbeatPacket }, 1)] := by
  rw [(heartbeat_spec true _).2.2.1 _ rfl]
  decide

/-- C3: `N` `createAgent` calls on a fresh registry assign exactly the
ids `1, …, N` in order (no duplicates, no gaps), each created agent is
retrievable by its own id via `getAgent` and carries that id, and the
acceptor namespace keeps its own independent counter still at 1 (the
next acceptor would get id 1). -/
theorem createAgents_spec (N : Nat) :
    ((createAgents N NewNetService).2.map Agent.id = List.range' 1 N)
    ∧ (∀ i, 1 ≤ i → i ≤ N →
        getAgent (createAgents N NewNetService).1 i = .ok (newAgent i)
          ∧ (newAgent i).id = i)
    ∧ NewNetService.acceptorUid = 1
    ∧ (createAgents N NewNetService).1.acceptorUid = 1
    ∧ (createAcceptor (createAgents N NewNetService).1).2.id = 1 := by
  obtain ⟨huid, hids, ⟨m', hm', hfind⟩, hau, ham, hcb⟩ :=
    createAgents_general N NewNetService [] rfl
  refine ⟨hids, ?_, rfl, ?_, ?_⟩
  · intro i h1 hN
    have h0 : NewNetService.agentUid = 1 := rfl
    have hc : NewNetService.agentUid ≤ i ∧ i < NewNetService.agentUid + N := by
      rw [h0]
      exact ⟨h1, by omega⟩
    have hf := hfind i
    rw [if_pos hc] at hf
    exact ⟨by simp [getAgent, hm', hf], rfl⟩
  · rw [hau]
    exact rfl
  · show (createAgents N NewNetService).1.acceptorUid = 1
    rw [hau]
    exact rfl

/-- Witness for C3: three creations yield ids `[1, 2, 3]` and agent 2 is
retrievable. -/
theorem createAgents_spec_witness :
    (createAgents 3 NewNetService).2.map Agent.id = [1, 2, 3]
    ∧ getAgent (createAgents 3 NewNetService).1 2 = .ok (newAgent 2) := by
  have h := createAgents_spec 3
  exact ⟨h.1.trans (by decide), (h.2.1 2 (by decide) (by decide)).1⟩

/-- C5 (counterexample): with a frontend role, closing a session on a
registry that is not the process-wide default one removes the agent from
the receiver, but the emitted dump describes the default registry's
agent mapping — here two agents — not the receiver's now-empty remaining
mapping, so the dump is not "of that same registry". -/
theorem closeSession_dump_counterexample :
    (closeSession true
        { agentUid := 2, agentMap := some [(1, newAgent 1)],
          acceptorUid := 1, acceptorMap := some [], sessionCloseCb := [] }
        false
        { agentUid := 3, agentMap := some [(1, newAgent 1), (2, newAgent 2)],
          acceptorUid := 1, acceptorMap := some [], sessionCloseCb := [] }
        { lastID := 0, status := .closed, entityID := 1 }).2.dump
      = some (2, [newAgent 1, newAgent 2])
    ∧ dumpAgents (closeSession true
        { agentUid := 2, agentMap := some [(1, newAgent 1)],
          acceptorUid := 1, acceptorMap := some [], sessionCloseCb := [] }
        false
        { agentUid := 3, agentMap := some [(1, newAgent 1), (2, newAgent 2)],
          acceptorUid := 1, acceptorMap := some [], sessionCloseCb := [] }
        { lastID := 0, status := .closed, entityID := 1 }).1
      = (0, [])
    ∧ (closeSession true
        { agentUid := 2, agentMap := some [(1, newAgent 1)],
          acceptorUid := 1, acceptorMap := some [], sessionCloseCb := [] }
        false
        { agentUid := 3, agentMap := some [(1, newAgent 1), (2, newAgent 2)],
          acceptorUid := 1, acceptorMap := some [], sessionCloseCb := [] }
        { lastID := 0, status := .closed, entityID := 1 }).2.dump
      ≠ some (dumpAgents (closeSession true
          { agentUid := 2, agentMap := some [(1, newAgent 1)],
            acceptorUid := 1, acceptorMap := some [], sessionCloseCb := [] }
          false
          { agentUid := 3, agentMap := some [(1, newAgent 1), (2, newAgent 2)],
            acceptorUid := 1, acceptorMap := some [], sessionCloseCb := [] }
          { lastID := 0, status := .closed, entityID := 1 }).1) := by
  decide

/-- C5 (amended): with a frontend role, `closeSession` removes the agent
whose id is the session's entity id from the receiver's agent mapping (a
no-op when absent) and emits a dump of the *process-wide default*
registry's agent mapping — which is the receiver's remaining mapping
exactly when `closeSession` is invoked on the default registry; with a
non-frontend role neither the agent mapping nor the acceptor mapping is
mutated and no dump is emitted; the acceptor mapping is never mutated. -/
theorem closeSession_spec (net : NetService) (aliasDefault : Bool)
    (defaultNS : NetService) (s : Session) :
    ((closeSession false net aliasDefault defaultNS s).1 = net)
    ∧ ((closeSession false net aliasDefault defaultNS s).2.dump = none)
    ∧ (∀ m, net.agentMap = some m →
        (closeSession true net aliasDefault defaultNS s).1
          = { net with agentMap := some (assocDelete m s.entityID) })
    ∧ (∀ m, net.agentMap = some m → assocFind m s.entityID = none →
        (closeSession true net aliasDefault defaultNS s).1 = net)
    ∧ ((closeSession true net aliasDefault defaultNS s).2.dump
        = some (dumpAgents (if aliasDefault
            then (closeSession true net aliasDefault defaultNS s).1
            else defaultNS)))
    ∧ (∀ f : Bool, (closeSession f net aliasDefault defaultNS s).1.acceptorMap
        = net.acceptorMap) := by
  refine ⟨rfl, rfl, ?_, ?_, ?_, ?_⟩
  · intro m hm
    cases hf : assocFind m s.entityID with
    | some a => simp [closeSession, hm, hf]
    | none => simp [closeSession, hm, hf, assocDelete_of_find_none m _ hf]
  · intro m hm hf
    simp [closeSession, hm, hf]
    rw [← hm]
  · cases aliasDefault <;> rfl
  · intro f
    cases f <;> rfl

/-- Witness for C5: on the default registry itself (aliased), closing
the only agent's session leaves an empty mapping and the dump reports
that same remaining mapping. -/
theorem closeSession_spec_witness :
    (closeSession true
        { agentUid := 2, agentMap := some [(1, newAgent 1)],
          acceptorUid := 1, acceptorMap := some [], sessionCloseCb := [] }
        true
        { agentUid := 2, agentMap := some [(1, newAgent 1)],
          acceptorUid := 1, acceptorMap := some [], sessionCloseCb := [] }
        { lastID := 0, status := .closed, entityID := 1 }).1
      = { agentUid := 2, agentMap := some [],
          acceptorUid := 1, acceptorMap := some [], sessionCloseCb := [] } := by
  rw [(closeSession_spec
      { agentUid := 2, agentMap := some [(1, newAgent 1)],
        acceptorUid := 1, acceptorMap := some [], sessionCloseCb := [] }
      true
      { agentUid := 2, agentMap := some [(1, newAgent 1)],
        acceptorUid := 1, acceptorMap := some [], sessionCloseCb := [] }
      { lastID := 0, status := .closed, entityID := 1 }).2.2.1 _ rfl]
  decide

/-- C8: `removeAcceptor` deletes the acceptor's id from the acceptor
mapping unconditionally and is idempotent (a second call, or a call on
an already-absent id, changes nothing), and neither `closeSession` (in
either role) nor agent creation ever removes an acceptor from the
mapping. -/
theorem removeAcceptor_spec (net : NetService) (a : Acceptor) :
    ((removeAcceptor net a).acceptorMap
        = net.acceptorMap.map (fun m => assocDelete m a.id))
    ∧ removeAcceptor (removeAcceptor net a) a = removeAcceptor net a
    ∧ (∀ m, net.acceptorMap = some m → assocFind m a.id = none →
        removeAcceptor net a = net)
    ∧ (∀ (f ad : Bool) (dflt : NetService) (s : Session),
        (closeSession f net ad dflt s).1.acceptorMap = net.acceptorMap)
    ∧ ((createAgent net).1.acceptorMap = net.acceptorMap) := by
  refine ⟨rfl, ?_, ?_, ?_, rfl⟩
  · simp only [removeAcceptor, Option.map_map]
    have hfun : ((fun m => assocDelete m a.id) ∘ fun m => assocDelete m a.id)
        = (fun m : List (Nat × Acceptor) => assocDelete m a.id) := by
      funext m
      simp [Function.comp, assocDelete_idem]
    rw [hfun]
  · intro m hm hf
    simp [removeAcceptor, hm, assocDelete_of_find_none m _ hf]
    rw [← hm]
  · intro f ad dflt s
    cases f <;> rfl

/-- Witness for C8: removing an acceptor whose id is absent leaves a
concrete registry unchanged. -/
theorem removeAcceptor_spec_witness :
    removeAcceptor
        { agentUid := 1, agentMap := some [],
          acceptorUid := 2, acceptorMap := some [(1, newAcceptor 1)],
          sessionCloseCb := [] }
        (newAcceptor 5)
      = { agentUid := 1, agentMap := some [],
          acceptorUid := 2, acceptorMap := some [(1, newAcceptor 1)],
          sessionCloseCb := [] } :=
  (removeAcceptor_spec
      { agentUid := 1, agentMap := some [],
        acceptorUid := 2, acceptorMap := some [(1, newAcceptor 1)],
        sessionCloseCb := [] }
      (newAcceptor 5)).2.2.1 _ rfl (by decide)

/-- C9 (evidence): the bodies of `getAgent`, `getAcceptor`, `Broadcast`,
`Multicast` and `heartbeat` acquire no lock at all — in particular not
the mapping lock their own field comments say protects the map — while
only the `dump` routines hold the mapping's read lock for their scan. -/
theorem mapping_reader_locks :
    acquires getAgentLocks .agentMapLock = false
    ∧ acquires getAcceptorLocks .acceptorMapLock = false
    ∧ acquires BroadcastLocks .agentMapLock = false
    ∧ acquires MulticastLocks .agentMapLock = false
    ∧ acquires heartbeatLocks .agentMapLock = false
    ∧ acquires dumpAgentsLocks .agentMapLock = true
    ∧ acquires dumpAcceptorLocks .acceptorMapLock = true := by
  decide

end Starx
